import Mathlib

/-!
# Verification of the LKH-AMZ trajectory recorder and Lin-Kernighan driver

Shallow embedding of the trajectory-recording subsystem
(`src/LKH-AMZ/SRC/Trajectory.c`, `Trajectory.h`), the decision recorder and
the Lin-Kernighan main loop (`src/LKH-AMZ/SRC/LinKernighan.c`), and the
candidate-filter event recorder (`src/LKH-AMZ/SRC/CreateCandidateSet.c`).

Modelling conventions:
* C `int` and `long long` fields become `Int`.
* C `double` fields become `ℚ` (the claims checked here concern whether a
  division happens and whether sentinel zeros are written, both of which are
  exact at the concrete inputs used; no rounding behaviour is relied on).
* A malloc'ed flat buffer becomes `Option (Int → α)`: `none` is the NULL
  pointer, `some f` is an allocated buffer whose cell at byte-index `i`
  (scaled to element units) holds `f i`.  `memcpy`/loop writes become
  pointwise functional overrides of an index region.
* Possibly-NULL pointer parameters become `Option` values.
-/

/-- Pointwise update of a flat buffer at one index (one C array store). -/
def writeAt (f : Int → α) (i : Int) (v : α) : Int → α :=
  fun j => if j = i then v else f j

/-- `memcpy(&dst[dstOff], &src[srcOff], n * sizeof..)` on flat buffers:
indices `dstOff ≤ j < dstOff + n` take their value from `src`, all other
cells are untouched. -/
def copyRegion (dst : Int → α) (dstOff : Int) (src : Int → α) (srcOff : Int)
    (n : Int) : Int → α :=
  fun j => if dstOff ≤ j ∧ j < dstOff + n then src (srcOff + (j - dstOff)) else dst j

/-- A loop (or `memset`) writing the constant `v` to every index
`lo ≤ j < hi` of a flat buffer. -/
def fillRegion (dst : Int → α) (lo hi : Int) (v : α) : Int → α :=
  fun j => if lo ≤ j ∧ j < hi then v else dst j

/-- Read a list as a flat input buffer (a C array argument): cell `i` holds
the `i`-th list element; cells outside the meaningful range are arbitrary
(defaulted), matching the fact that the C code only reads the first
`n` cells of such an argument. -/
def listFn (l : List α) (d : α) : Int → α :=
  fun i => if 0 ≤ i then l.getD i.toNat d else d

/-- The `TrajectoryData` struct of `Trajectory.h`.  The eight pointer
fields are `Option`-valued buffers (`none` = NULL); the five scalar control
fields keep their C names and types. -/
structure TrajectoryData where
  TourSnapshots : Option (Int → Int)
  CurrentNodeAtStep : Option (Int → Int)
  CandidateNodeIds : Option (Int → Int)
  CandidateCosts : Option (Int → ℚ)
  ActualNumCandidatesAtStep : Option (Int → Int)
  TourCostAtStep : Option (Int → Int)
  ChosenNodeAtStep : Option (Int → Int)
  ChosenNodeGainAtStep : Option (Int → ℚ)
  TrajectorySize : Int
  MaxTrajectorySize : Int
  Dimension : Int
  MaxCandidatesPerStep : Int
  RecordingEnabled : Int

/-- The all-zero / all-NULL recorder state: what `TD_Cleanup` leaves behind,
and also the state of the zero-initialised global `Trajectory` before any
`TD_Initialize`. -/
def TDzero : TrajectoryData :=
  { TourSnapshots := none
    CurrentNodeAtStep := none
    CandidateNodeIds := none
    CandidateCosts := none
    ActualNumCandidatesAtStep := none
    TourCostAtStep := none
    ChosenNodeAtStep := none
    ChosenNodeGainAtStep := none
    TrajectorySize := 0
    MaxTrajectorySize := 0
    Dimension := 0
    MaxCandidatesPerStep := 0
    RecordingEnabled := 0 }

/-- `TD_Cleanup` (Trajectory.c lines 128–155) on a non-NULL target: frees
all eight buffers (pointers become NULL) and zeroes every scalar.  In the
heap-free model this is the constant `TDzero` state. -/
def TD_Cleanup (_td : TrajectoryData) : TrajectoryData := TDzero

/-- `TD_Cleanup` including the NULL-target guard (`if (td == NULL) return;`). -/
def TD_CleanupP (td : Option TrajectoryData) : Option TrajectoryData :=
  match td with
  | none => none
  | some s => some (TD_Cleanup s)

/-- One allocation plan for the eight `malloc` calls of `TD_Initialize`:
`none` = that `malloc` fails, `some f` = it succeeds and returns a fresh
buffer with arbitrary (uninitialised) contents `f`. -/
structure AllocPlan where
  ts : Option (Int → Int)
  cn : Option (Int → Int)
  ci : Option (Int → Int)
  cc : Option (Int → ℚ)
  an : Option (Int → Int)
  tc : Option (Int → Int)
  ch : Option (Int → Int)
  cg : Option (Int → ℚ)

/-- `TD_Initialize` (Trajectory.c lines 11–55).  Returns the C return value
(0 success, -1 failure) paired with the state of the target after the call.
Parameter order and checks follow the source: the NULL/bounds guard returns
-1 without touching the target; otherwise the scalars are set, the eight
buffers are allocated per `plan`, and if any allocation failed `TD_Cleanup`
is invoked (releasing everything, leaving the all-zero state) before -1 is
returned.  On success `CandidateNodeIds` is `memset` to zero over its whole
extent. -/
def TD_Initialize (td : Option TrajectoryData) (problem_dimension max_steps
    max_candidates_per_step : Int) (plan : AllocPlan) :
    Int × Option TrajectoryData :=
  match td with
  | none => (-1, none)
  | some _s =>
    if problem_dimension ≤ 0 ∨ max_steps ≤ 0 ∨ max_candidates_per_step ≤ 0 then
      (-1, td)
    else
      let s1 : TrajectoryData :=
        { TourSnapshots := plan.ts
          CurrentNodeAtStep := plan.cn
          CandidateNodeIds := plan.ci
          CandidateCosts := plan.cc
          ActualNumCandidatesAtStep := plan.an
          TourCostAtStep := plan.tc
          ChosenNodeAtStep := plan.ch
          ChosenNodeGainAtStep := plan.cg
          TrajectorySize := 0
          MaxTrajectorySize := max_steps
          Dimension := problem_dimension
          MaxCandidatesPerStep := max_candidates_per_step
          RecordingEnabled := 0 }
      if plan.ts.isNone ∨ plan.cn.isNone ∨ plan.ci.isNone ∨ plan.cc.isNone ∨
          plan.an.isNone ∨ plan.tc.isNone ∨ plan.ch.isNone ∨ plan.cg.isNone then
        (-1, some (TD_Cleanup s1))
      else
        (0, some { s1 with
          CandidateNodeIds := s1.CandidateNodeIds.map
            (fun f => fillRegion f 0 (max_steps * max_candidates_per_step) 0) })

/-- `TD_RecordState` (Trajectory.c lines 57–112) on a non-NULL target.
Guard: not recording or buffer full ⇒ the state is returned unchanged.
Otherwise the state half of step `TrajectorySize` is written: tour snapshot
(if the tour argument is non-NULL), current node id, tour cost, truncated
candidate count, candidate ids/costs (for non-NULL argument arrays), and the
remaining candidate slots of the step are zero-filled.  `TrajectorySize` is
not changed. -/
def TD_RecordState (td : TrajectoryData) (current_node_id : Int)
    (current_tour_array : Option (Int → Int)) (current_tour_cost : Int)
    (lkh_candidate_ids : Option (Int → Int))
    (lkh_candidate_costs : Option (Int → ℚ))
    (num_lkh_candidates : Int) : TrajectoryData :=
  if td.RecordingEnabled = 0 ∨ td.MaxTrajectorySize ≤ td.TrajectorySize then td
  else
    let step_idx := td.TrajectorySize
    let ts := match current_tour_array with
      | some src => td.TourSnapshots.map
          (fun d => copyRegion d (step_idx * td.Dimension) src 0 td.Dimension)
      | none => td.TourSnapshots
    let cn := td.CurrentNodeAtStep.map (fun d => writeAt d step_idx current_node_id)
    let tc := td.TourCostAtStep.map (fun d => writeAt d step_idx current_tour_cost)
    let candidates_to_copy :=
      if td.MaxCandidatesPerStep < num_lkh_candidates then td.MaxCandidatesPerStep
      else num_lkh_candidates
    let an := td.ActualNumCandidatesAtStep.map
      (fun d => writeAt d step_idx candidates_to_copy)
    let ci0 := match lkh_candidate_ids with
      | some src => td.CandidateNodeIds.map
          (fun d => copyRegion d (step_idx * td.MaxCandidatesPerStep) src 0
            candidates_to_copy)
      | none => td.CandidateNodeIds
    let cc0 := match lkh_candidate_costs with
      | some src => td.CandidateCosts.map
          (fun d => copyRegion d (step_idx * td.MaxCandidatesPerStep) src 0
            candidates_to_copy)
      | none => td.CandidateCosts
    let ci := ci0.map (fun d => fillRegion d
      (step_idx * td.MaxCandidatesPerStep + candidates_to_copy)
      (step_idx * td.MaxCandidatesPerStep + td.MaxCandidatesPerStep) 0)
    let cc := cc0.map (fun d => fillRegion d
      (step_idx * td.MaxCandidatesPerStep + candidates_to_copy)
      (step_idx * td.MaxCandidatesPerStep + td.MaxCandidatesPerStep) 0)
    { td with
      TourSnapshots := ts
      CurrentNodeAtStep := cn
      TourCostAtStep := tc
      ActualNumCandidatesAtStep := an
      CandidateNodeIds := ci
      CandidateCosts := cc }

/-- `TD_RecordState` including the NULL-target guard (`!td`). -/
def TD_RecordStateP (td : Option TrajectoryData) (current_node_id : Int)
    (current_tour_array : Option (Int → Int)) (current_tour_cost : Int)
    (lkh_candidate_ids : Option (Int → Int))
    (lkh_candidate_costs : Option (Int → ℚ))
    (num_lkh_candidates : Int) : Option TrajectoryData :=
  match td with
  | none => none
  | some s => some (TD_RecordState s current_node_id current_tour_array
      current_tour_cost lkh_candidate_ids lkh_candidate_costs num_lkh_candidates)

/-- `TD_RecordAction` (Trajectory.c lines 114–126) on a non-NULL target.
Same guard as `TD_RecordState`; otherwise writes the action half (chosen
node id and gain) of step `TrajectorySize` and then increments
`TrajectorySize`, completing the (state, action) pair. -/
def TD_RecordAction (td : TrajectoryData) (chosen_node_id : Int)
    (chosen_node_gain : ℚ) : TrajectoryData :=
  if td.RecordingEnabled = 0 ∨ td.MaxTrajectorySize ≤ td.TrajectorySize then td
  else
    let step_idx := td.TrajectorySize
    { td with
      ChosenNodeAtStep := td.ChosenNodeAtStep.map
        (fun d => writeAt d step_idx chosen_node_id)
      ChosenNodeGainAtStep := td.ChosenNodeGainAtStep.map
        (fun d => writeAt d step_idx chosen_node_gain)
      TrajectorySize := td.TrajectorySize + 1 }

/-- `TD_RecordAction` including the NULL-target guard (`!td`). -/
def TD_RecordActionP (td : Option TrajectoryData) (chosen_node_id : Int)
    (chosen_node_gain : ℚ) : Option TrajectoryData :=
  match td with
  | none => none
  | some s => some (TD_RecordAction s chosen_node_id chosen_node_gain)

/-- `TD_EnableRecording` (Trajectory.c lines 157–168), acting on the global
recorder: refuses (and forces the flag off) if the recorder was never
successfully initialised (`Dimension` or `MaxTrajectorySize` still 0),
otherwise sets `RecordingEnabled` to 1. -/
def TD_EnableRecording (td : TrajectoryData) : TrajectoryData :=
  if td.Dimension = 0 ∨ td.MaxTrajectorySize = 0 then
    { td with RecordingEnabled := 0 }
  else
    { td with RecordingEnabled := 1 }

/-- `TD_DisableRecording` (Trajectory.c lines 170–173). -/
def TD_DisableRecording (td : TrajectoryData) : TrajectoryData :=
  { td with RecordingEnabled := 0 }

/-- `td_record_candidate_filter_event` (Trajectory.c lines 176–193): the
body only (conditionally) prints a debug line; it does not write any
`TrajectoryData` field and does not increment `TrajectorySize`, so on the
recorder state it is the identity. -/
def td_record_candidate_filter_event (td : TrajectoryData)
    (_from_node _to_node _cost _accepted : Int) : TrajectoryData := td

/-- `RecordCandidateFiltering` (CreateCandidateSet.c lines 11–60): after
its guards (recording enabled, positive dimension, buffer not full,
dimension ≥ 4) it calls `td_record_candidate_filter_event`; every store
into the trajectory arrays in its body is commented out in the source. -/
def RecordCandidateFiltering (td : TrajectoryData)
    (fromId toId cost accepted : Int) : TrajectoryData :=
  if td.RecordingEnabled = 0 ∨ td.Dimension ≤ 0 then td
  else if td.MaxTrajectorySize ≤ td.TrajectorySize then td
  else if td.Dimension < 4 then td
  else td_record_candidate_filter_event td fromId toId cost accepted

/-- Read accessor for the recorded chosen-node gain (NULL buffer reads 0;
only used to state properties at indices the code actually wrote). -/
def tdGainAt (td : TrajectoryData) (i : Int) : ℚ :=
  match td.ChosenNodeGainAtStep with
  | some f => f i
  | none => 0

/-- Read accessor for the recorded chosen-node id. -/
def tdChosenAt (td : TrajectoryData) (i : Int) : Int :=
  match td.ChosenNodeAtStep with
  | some f => f i
  | none => 0

/-- Read accessor for a recorded candidate id. -/
def tdCandIdAt (td : TrajectoryData) (i : Int) : Int :=
  match td.CandidateNodeIds with
  | some f => f i
  | none => 0

/-- Read accessor for a recorded candidate cost. -/
def tdCandCostAt (td : TrajectoryData) (i : Int) : ℚ :=
  match td.CandidateCosts with
  | some f => f i
  | none => 0

/-- Read accessor for a recorded actual-candidate count. -/
def tdActualCountAt (td : TrajectoryData) (i : Int) : Int :=
  match td.ActualNumCandidatesAtStep with
  | some f => f i
  | none => 0

/-!
## Call sequences against the recorder

Used to state the size invariant of claim C2 over arbitrary interleavings
of the recorder's mutating entry points.
-/

/-- One call against the global recorder after initialization. -/
inductive TDCall
  | recState (nodeId : Int) (tour : Option (Int → Int)) (cost : Int)
      (candIds : Option (Int → Int)) (candCosts : Option (Int → ℚ)) (num : Int)
  | recAction (chosen : Int) (gain : ℚ)
  | enable
  | disable

/-- Dispatch one `TDCall` to the corresponding Trajectory.c entry point. -/
def TD_ApplyCall (td : TrajectoryData) : TDCall → TrajectoryData
  | .recState nodeId tour cost candIds candCosts num =>
      TD_RecordState td nodeId tour cost candIds candCosts num
  | .recAction chosen gain => TD_RecordAction td chosen gain
  | .enable => TD_EnableRecording td
  | .disable => TD_DisableRecording td

/-- Run a sequence of recorder calls left to right. -/
def TD_RunCalls (td : TrajectoryData) (cs : List TDCall) : TrajectoryData :=
  cs.foldl TD_ApplyCall td

/-!
## The Lin-Kernighan driver (LinKernighan.c)

The move search (`SpecialMove`), tour bookkeeping (`StoreTour`,
`RestoreTour`, `Activate`) and cost/hash primitives live outside the seven
source files of this repository; the control flow of `LinKernighan` that
drives them is embedded exactly, with the externals supplied by an oracle
(`LKOracle`) and, where the spec pins their behaviour down, modelled from
the spec.  Tours are abstract labels (`Nat`): the claims checked here
observe only which tour is current/stored, never its internal order.
-/

/-- Solver parameters read by `LinKernighan`'s control flow. -/
structure LKParams where
  Precision : Int
  HashingUsed : Bool
  KickType : Int
  Trial : Int

/-- Outcome of one `SpecialMove(t1, t2, &G0, &Gain)` call: the accumulated
`Gain`, the global `PenaltyGain` it leaves behind, the speculative tour its
scratch-link mutations produce, and the tour hash resulting from those
swaps. -/
structure SMOutcome where
  gain : Int
  penaltyGain : Int
  specTour : Nat
  newHash : Int

/-- Oracle for the externals consumed by `LinKernighan`'s main loop,
indexed by the iteration counter where the value depends on search
history. -/
structure LKOracle where
  t2of : Nat → Bool → Int
  fixedP : Int → Int → Bool
  nearP : Int → Int → Bool
  Cfun : Int → Int → Int
  sm : Nat → Bool → SMOutcome
  hashSearch : Int → Int → Bool
  tourList : Nat → List Int
  candsOf : Int → List (Int × Int)

/-- The solver state mutated by `LinKernighan`'s main loop. -/
structure LKState where
  Cost : Int
  CurrentPenalty : Int
  HashVal : Int
  curTour : Nat
  storedTour : Nat
  active : List Int
  traj : TrajectoryData

/-- Modelled from the spec: `StoreTour` (not under src/) — "snapshot the
new tour as a stored candidate-best"; §4.4: the hash tracks the stored
tour, so the commit makes the hash of the resulting tour current. -/
def StoreTour (newHash : Int) (s : LKState) : LKState :=
  { s with storedTour := s.curTour, HashVal := newHash }

/-- Modelled from the spec: `RestoreTour` (not under src/) — "roll back any
speculative link mutations", returning the current tour to the last stored
one; running cost and penalty are untouched. -/
def RestoreTour (s : LKState) : LKState :=
  { s with curTour := s.storedTour }

/-- Modelled from the spec: `Activate` (not under src/) — §4.2 "append if
not already present". -/
def Activate (n : Int) (q : List Int) : List Int :=
  if n ∈ q then q else q ++ [n]

/-- `RecordDecision` (LinKernighan.c lines 12–80).  `tourIds` is the node-id
sequence read by following `Suc` from `FirstNode` (length `Dimension` in any
reachable call); `cands` is `t`'s sentinel-terminated candidate list as
`(To->Id, Cost)` pairs; `selected` is the possibly-NULL chosen node.  The
candidate costs and the recorded gain are divided by `Precision` when
`Precision ≠ 0`, exactly as in the source. -/
def RecordDecision (traj : TrajectoryData) (tId : Int) (tourIds : List Int)
    (cands : List (Int × Int)) (selected : Option Int) (gain : Int)
    (current_tour_cost_from_caller : Int) (Precision : Int) : TrajectoryData :=
  if traj.RecordingEnabled = 0 ∨ traj.MaxTrajectorySize ≤ traj.TrajectorySize then
    traj
  else if traj.Dimension ≤ 0 then traj
  else if traj.MaxCandidatesPerStep ≤ 0 then traj
  else
    let current_tour_array := listFn tourIds 0
    let taken := cands.take traj.MaxCandidatesPerStep.toNat
    let lkh_candidate_ids := listFn (taken.map Prod.fst) 0
    let lkh_candidate_costs := listFn (taken.map (fun p =>
      if Precision ≠ 0 then (p.2 : ℚ) / (Precision : ℚ) else (p.2 : ℚ))) 0
    let actual_candidate_count : Int := taken.length
    let traj1 := TD_RecordState traj tId (some current_tour_array)
      current_tour_cost_from_caller (some lkh_candidate_ids)
      (some lkh_candidate_costs) actual_candidate_count
    let chosen_node_id := selected.getD 0
    let chosen_gain : ℚ :=
      if Precision ≠ 0 then (gain : ℚ) / (Precision : ℚ) else (gain : ℚ)
    TD_RecordAction traj1 chosen_node_id chosen_gain

/-- How one `t2` branch of the main loop ended. -/
inductive BranchStatus
  | skipped
  | hit
  | committed
  | rolledBack
deriving DecidableEq

/-- One `X2` branch of `LinKernighan`'s inner `for` loop (lines 143–180):
pick `t2`, skip if fixed or near, compute `G0 = C(t1,t2)`, record the
decision when recording is enabled, run `SpecialMove` (whose speculative
mutations make `specTour` current), then either commit — update `Cost` and
`CurrentPenalty`, `StoreTour`, and consult the hash table, a hit ending the
trial — or `RestoreTour`. -/
def lkBranch (P : LKParams) (O : LKOracle) (n : Nat) (t1 : Int) (x2 : Bool)
    (s : LKState) : BranchStatus × LKState :=
  let t2 := O.t2of n x2
  if O.fixedP t1 t2 ∨ (O.nearP t1 t2 ∧ (P.Trial = 1 ∨ P.KickType = 0)) then
    (.skipped, s)
  else
    let G0 := O.Cfun t1 t2
    let traj' := RecordDecision s.traj t1 (O.tourList n) (O.candsOf t1)
      (some t2) G0 s.Cost P.Precision
    let sr := if s.traj.RecordingEnabled ≠ 0 then { s with traj := traj' } else s
    let o := O.sm n x2
    let s1 := { sr with curTour := o.specTour }
    if 0 < o.penaltyGain ∨ 0 < o.gain then
      let s2 := { s1 with
        Cost := s1.Cost - o.gain.tdiv P.Precision
        CurrentPenalty := s1.CurrentPenalty - o.penaltyGain }
      let s3 := StoreTour o.newHash s2
      ((if P.HashingUsed ∧ O.hashSearch s3.HashVal s3.Cost then BranchStatus.hit
        else BranchStatus.committed), s3)
    else
      (.rolledBack, RestoreTour s1)

/-- Result of processing one active node: `stop` abandons the loop
(`goto End_LinKernighan`), `go` continues with the next active node. -/
inductive IterOut
  | stop (s : LKState)
  | go (s : LKState)

/-- Process one `t1` popped from the active queue: try `X2 = 1` (PRED) then
`X2 = 2` (SUC).  A hash hit stops the trial; a plain commit reactivates
`t1` and breaks; a skipped or rolled-back branch falls through to the other
`t2` choice. -/
def lkHandleNode (P : LKParams) (O : LKOracle) (n : Nat) (t1 : Int)
    (s : LKState) : IterOut :=
  match lkBranch P O n t1 false s with
  | (.hit, s1) => .stop s1
  | (.committed, s1) => .go { s1 with active := Activate t1 s1.active }
  | (_, s1) =>
    match lkBranch P O n t1 true s1 with
    | (.hit, s2) => .stop s2
    | (.committed, s2) => .go { s2 with active := Activate t1 s2.active }
    | (_, s2) => .go s2

/-- The active-node `while` loop of `LinKernighan` (lines 134–181), with
explicit fuel bounding the number of iterations and `n` the iteration
counter feeding the oracle. -/
def lkLoop (P : LKParams) (O : LKOracle) : Nat → Nat → LKState → LKState
  | 0, _, s => s
  | Nat.succ fuel, n, s =>
    match s.active with
    | [] => s
    | t1 :: rest =>
      match lkHandleNode P O n t1 { s with active := rest } with
      | .stop s2 => s2
      | .go s2 => lkLoop P O fuel (n + 1) s2

/-- `LinKernighan`'s return value from the main loop onward: after the loop
(or the `goto End_LinKernighan`), `NormalizeNodeList` and the `Reversed`
reset touch only bookkeeping, and `Cost` is returned. -/
def LinKernighanLoopCost (P : LKParams) (O : LKOracle) (fuel : Nat)
    (s : LKState) : Int :=
  (lkLoop P O fuel 0 s).Cost

/-!
## The per-trial activation pass (LinKernighan.c lines 110–123)
-/

/-- What the activation pass reads about one node: its id and whether its
two current tour edges (to `Pred` and to `Suc`) are in the best-known
tour. -/
structure InitNode where
  id : Int
  inBestPred : Bool
  inBestSuc : Bool

/-- The activation condition of LinKernighan.c lines 119–121:
`KickType == 0 || Trial == 1 || !InBestTour(t1, t1->Pred) ||
!InBestTour(t1, t1->Suc)`. -/
def shouldActivate (P : LKParams) (nd : InitNode) : Bool :=
  P.KickType == 0 || P.Trial == 1 || !nd.inBestPred || !nd.inBestSuc

/-- The activation pass at the start of a trial: walk the tour once (each
node appears once) and `Activate` every node satisfying the condition,
starting from an empty queue (`FirstActive = LastActive = 0`). -/
def lkInitActivate (P : LKParams) (nodes : List InitNode) : List Int :=
  nodes.foldl (fun q nd => if shouldActivate P nd then Activate nd.id q else q) []

/-- The passivity condition exactly as claim C5 states it: the node is left
passive precisely when this is not the first trial, kicks are disabled, and
both of its current tour edges belong to the best-known tour. -/
def passiveClaimC5 (P : LKParams) (nd : InitNode) : Prop :=
  P.Trial ≠ 1 ∧ P.KickType = 0 ∧ nd.inBestPred = true ∧ nd.inBestSuc = true

/-- Read accessor for a recorded current (origin) node id. -/
def tdCurrentNodeAt (td : TrajectoryData) (i : Int) : Int :=
  match td.CurrentNodeAtStep with
  | some f => f i
  | none => 0

/-!
## Concrete fixtures

Used by the witness and counterexample theorems below to evaluate the
embedded operations on explicit inputs.
-/

/-- A small fully-allocated recorder: dimension 3, capacity 2 steps,
2 candidates per step, recording on, empty so far. -/
def tdSampleA : TrajectoryData :=
  { TourSnapshots := some (fun _ => 0)
    CurrentNodeAtStep := some (fun _ => 0)
    CandidateNodeIds := some (fun _ => 0)
    CandidateCosts := some (fun _ => 0)
    ActualNumCandidatesAtStep := some (fun _ => 0)
    TourCostAtStep := some (fun _ => 0)
    ChosenNodeAtStep := some (fun _ => 0)
    ChosenNodeGainAtStep := some (fun _ => 0)
    TrajectorySize := 0
    MaxTrajectorySize := 2
    Dimension := 3
    MaxCandidatesPerStep := 2
    RecordingEnabled := 1 }

/-- An allocation plan in which all eight `malloc` calls succeed. -/
def planOk : AllocPlan :=
  { ts := some (fun _ => 0), cn := some (fun _ => 0), ci := some (fun _ => 0)
    cc := some (fun _ => 0), an := some (fun _ => 0), tc := some (fun _ => 0)
    ch := some (fun _ => 0), cg := some (fun _ => 0) }

/-- An allocation plan in which the first `malloc` fails. -/
def planBad : AllocPlan :=
  { ts := none, cn := some (fun _ => 0), ci := some (fun _ => 0)
    cc := some (fun _ => 0), an := some (fun _ => 0), tc := some (fun _ => 0)
    ch := some (fun _ => 0), cg := some (fun _ => 0) }

/-- The recorder state produced by a successful
`TD_Initialize(&Trajectory, 3, 2, 2)` under `planOk`. -/
def tdInitOk : TrajectoryData :=
  ((TD_Initialize (some TDzero) 3 2 2 planOk).2).getD TDzero

/-- Parameters for the no-gain witness run: `Precision` 1, hashing off,
kicks off, first trial. -/
def pNoGain : LKParams := { Precision := 1, HashingUsed := false, KickType := 0, Trial := 1 }

/-- Oracle for the no-gain witness run: nothing fixed or near, every
`SpecialMove` finds nothing (`gain = penaltyGain = 0`), empty hash table. -/
def oNoGain : LKOracle :=
  { t2of := fun _ _ => 2
    fixedP := fun _ _ => false
    nearP := fun _ _ => false
    Cfun := fun _ _ => 5
    sm := fun _ _ => { gain := 0, penaltyGain := 0, specTour := 7, newHash := 9 }
    hashSearch := fun _ _ => false
    tourList := fun _ => [1, 2, 3]
    candsOf := fun _ => [(2, 5), (3, 6)] }

/-- Start state for the no-gain witness run. -/
def sNoGain : LKState :=
  { Cost := 100, CurrentPenalty := 50, HashVal := 0, curTour := 1, storedTour := 1
    active := [1], traj := TDzero }

/-- Parameters for the hash-hit witness run: hashing on. -/
def pHit : LKParams := { Precision := 1, HashingUsed := true, KickType := 0, Trial := 1 }

/-- Oracle for the hash-hit witness run: the first `SpecialMove` improves
by 5 and the resulting `(hash, cost)` pair is already in the table. -/
def oHit : LKOracle :=
  { t2of := fun _ _ => 2
    fixedP := fun _ _ => false
    nearP := fun _ _ => false
    Cfun := fun _ _ => 5
    sm := fun _ _ => { gain := 5, penaltyGain := 0, specTour := 7, newHash := 9 }
    hashSearch := fun _ _ => true
    tourList := fun _ => [1, 2, 3]
    candsOf := fun _ => [(2, 5), (3, 6)] }

/-- Start state for the hash-hit witness run: two active nodes, so early
termination is observable (node 4 is never processed). -/
def sHit0 : LKState :=
  { Cost := 100, CurrentPenalty := 50, HashVal := 0, curTour := 1, storedTour := 1
    active := [1, 4], traj := TDzero }

/-- The state in which the hash-hit run stops: the state left by the
committing first branch of node 1. -/
def sHitEnd : LKState :=
  (lkBranch pHit oHit 0 1 false { sHit0 with active := [4] }).2

/-- Parameters exercising claim C5's wording: kicks disabled
(`KickType = 0`) and not the first trial (`Trial = 2`). -/
def pC5x : LKParams := { Precision := 100, HashingUsed := false, KickType := 0, Trial := 2 }

/-- A node whose two current tour edges are both in the best-known tour. -/
def ndC5x : InitNode := { id := 1, inBestPred := true, inBestSuc := true }

/-!
## Helper lemmas (shared)
-/

/-- `TD_RecordState` never changes the logical size, on any path. -/
theorem TD_recordState_size (td : TrajectoryData) (nodeId : Int)
    (tour : Option (Int → Int)) (cost : Int) (candIds : Option (Int → Int))
    (candCosts : Option (Int → ℚ)) (num : Int) :
    (TD_RecordState td nodeId tour cost candIds candCosts num).TrajectorySize =
      td.TrajectorySize := by
  unfold TD_RecordState
  split
  · rfl
  · rfl

/-- The guard of `TD_RecordState` makes the call a no-op. -/
theorem TD_recordState_noop (td : TrajectoryData) (nodeId : Int)
    (tour : Option (Int → Int)) (cost : Int) (candIds : Option (Int → Int))
    (candCosts : Option (Int → ℚ)) (num : Int)
    (h : td.RecordingEnabled = 0 ∨ td.MaxTrajectorySize ≤ td.TrajectorySize) :
    TD_RecordState td nodeId tour cost candIds candCosts num = td := by
  unfold TD_RecordState
  rw [if_pos h]

/-- The guard of `TD_RecordAction` makes the call a no-op. -/
theorem TD_recordAction_noop (td : TrajectoryData) (chosen : Int) (gain : ℚ)
    (h : td.RecordingEnabled = 0 ∨ td.MaxTrajectorySize ≤ td.TrajectorySize) :
    TD_RecordAction td chosen gain = td := by
  unfold TD_RecordAction
  rw [if_pos h]

/-- `TD_RecordState` never changes the capacity. -/
theorem TD_recordState_max (td : TrajectoryData) (nodeId : Int)
    (tour : Option (Int → Int)) (cost : Int) (candIds : Option (Int → Int))
    (candCosts : Option (Int → ℚ)) (num : Int) :
    (TD_RecordState td nodeId tour cost candIds candCosts num).MaxTrajectorySize =
      td.MaxTrajectorySize := by
  unfold TD_RecordState
  split
  · rfl
  · rfl

/-- `TD_RecordAction` never changes the capacity. -/
theorem TD_recordAction_max (td : TrajectoryData) (chosen : Int) (gain : ℚ) :
    (TD_RecordAction td chosen gain).MaxTrajectorySize = td.MaxTrajectorySize := by
  unfold TD_RecordAction
  split
  · rfl
  · rfl

/-- `TD_RecordAction` either leaves the size alone (guard) or advances it by
exactly one from a size strictly below capacity. -/
theorem TD_recordAction_size (td : TrajectoryData) (chosen : Int) (gain : ℚ) :
    (TD_RecordAction td chosen gain).TrajectorySize = td.TrajectorySize ∨
    ((TD_RecordAction td chosen gain).TrajectorySize = td.TrajectorySize + 1 ∧
      td.TrajectorySize < td.MaxTrajectorySize) := by
  unfold TD_RecordAction
  split
  · exact Or.inl rfl
  · next h =>
      push_neg at h
      exact Or.inr ⟨rfl, h.2⟩

/-- Enabling recording changes no size or capacity field. -/
theorem TD_enable_size_max (td : TrajectoryData) :
    (TD_EnableRecording td).TrajectorySize = td.TrajectorySize ∧
    (TD_EnableRecording td).MaxTrajectorySize = td.MaxTrajectorySize := by
  unfold TD_EnableRecording
  split
  · exact ⟨rfl, rfl⟩
  · exact ⟨rfl, rfl⟩

/-- Every recorder call preserves `0 ≤ TrajectorySize ≤ MaxTrajectorySize`
and never changes the capacity. -/
theorem TD_applyCall_bounds (td : TrajectoryData) (c : TDCall)
    (h0 : 0 ≤ td.TrajectorySize) (h1 : td.TrajectorySize ≤ td.MaxTrajectorySize) :
    0 ≤ (TD_ApplyCall td c).TrajectorySize ∧
    (TD_ApplyCall td c).TrajectorySize ≤ (TD_ApplyCall td c).MaxTrajectorySize ∧
    (TD_ApplyCall td c).MaxTrajectorySize = td.MaxTrajectorySize := by
  cases c with
  | recState nodeId tour cost candIds candCosts num =>
      have hs := TD_recordState_size td nodeId tour cost candIds candCosts num
      have hm := TD_recordState_max td nodeId tour cost candIds candCosts num
      exact ⟨by rw [show TD_ApplyCall td (TDCall.recState nodeId tour cost candIds
          candCosts num) = TD_RecordState td nodeId tour cost candIds candCosts num
          from rfl, hs]; exact h0,
        by rw [show TD_ApplyCall td (TDCall.recState nodeId tour cost candIds
          candCosts num) = TD_RecordState td nodeId tour cost candIds candCosts num
          from rfl, hs, hm]; exact h1,
        by rw [show TD_ApplyCall td (TDCall.recState nodeId tour cost candIds
          candCosts num) = TD_RecordState td nodeId tour cost candIds candCosts num
          from rfl, hm]⟩
  | recAction chosen gain =>
      have hm := TD_recordAction_max td chosen gain
      have heq : TD_ApplyCall td (TDCall.recAction chosen gain) =
          TD_RecordAction td chosen gain := rfl
      rcases TD_recordAction_size td chosen gain with hs | ⟨hs, hlt⟩
      · exact ⟨by rw [heq, hs]; exact h0, by rw [heq, hs, hm]; exact h1,
          by rw [heq, hm]⟩
      · refine ⟨by rw [heq, hs]; omega, by rw [heq, hs, hm]; omega, by rw [heq, hm]⟩
  | enable =>
      have hm := TD_enable_size_max td
      have heq : TD_ApplyCall td TDCall.enable = TD_EnableRecording td := rfl
      exact ⟨by rw [heq, hm.1]; exact h0, by rw [heq, hm.1, hm.2]; exact h1,
        by rw [heq, hm.2]⟩
  | disable =>
      exact ⟨h0, h1, rfl⟩

/-- Bounds carried through an arbitrary call sequence. -/
theorem TD_runCalls_bounds (cs : List TDCall) (td : TrajectoryData)
    (h0 : 0 ≤ td.TrajectorySize) (h1 : td.TrajectorySize ≤ td.MaxTrajectorySize) :
    0 ≤ (TD_RunCalls td cs).TrajectorySize ∧
    (TD_RunCalls td cs).TrajectorySize ≤ (TD_RunCalls td cs).MaxTrajectorySize ∧
    (TD_RunCalls td cs).MaxTrajectorySize = td.MaxTrajectorySize := by
  induction cs generalizing td with
  | nil => exact ⟨h0, h1, rfl⟩
  | cons c cs ih =>
      have h := TD_applyCall_bounds td c h0 h1
      have h2 := ih (TD_ApplyCall td c) h.1 h.2.1
      exact ⟨h2.1, h2.2.1, h2.2.2.trans h.2.2⟩

/-- A successful `TD_Initialize` leaves size 0 and capacity `max_steps`. -/
theorem TD_initialize_success_fields (s t : TrajectoryData) (dim steps cands : Int)
    (plan : AllocPlan)
    (h : TD_Initialize (some s) dim steps cands plan = (0, some t)) :
    t.TrajectorySize = 0 ∧ t.MaxTrajectorySize = steps ∧ 0 < steps := by
  simp only [TD_Initialize] at h
  split at h
  · exact absurd (show (-1 : Int) = 0 from congrArg Prod.fst h) (by decide)
  · next hok =>
      split at h
      · exact absurd (show (-1 : Int) = 0 from congrArg Prod.fst h) (by decide)
      · have ht := (Option.some.inj (congrArg Prod.snd h)).symm
        subst ht
        push_neg at hok
        exact ⟨rfl, rfl, hok.2.1⟩

/-- Pointwise evaluation of the candidate-row write pattern of
`TD_RecordState`: a `memcpy` of `C` cells followed by a zero-fill of cells
`C` to `M`, read back at offset `off + k`. -/
theorem fill_copy_eval (f : Int → α) (src : Int → α) (off C M : Int) (v : α)
    (k : Int) :
    (0 ≤ k → k < C →
      fillRegion (copyRegion f off src 0 C) (off + C) (off + M) v (off + k) = src k) ∧
    (C ≤ k → k < M →
      fillRegion (copyRegion f off src 0 C) (off + C) (off + M) v (off + k) = v) := by
  unfold fillRegion copyRegion
  constructor
  · intro h1 h2
    rw [if_neg (by omega), if_pos (by omega)]
    congr 1
    omega
  · intro h1 h2
    rw [if_pos (by omega)]

/-!
## Claims about the Trajectory Recorder
-/

/-- **C9**: `TD_Cleanup` nulls all eight backing-array pointers, zeroes every
scalar field, and is idempotent: a second consecutive call (also through the
NULL-guarded entry point) leaves the state identical to after the first. -/
theorem C9_cleanup_idempotent_and_zeroing (td : TrajectoryData) :
    (TD_Cleanup td).TourSnapshots = none ∧
    (TD_Cleanup td).CurrentNodeAtStep = none ∧
    (TD_Cleanup td).CandidateNodeIds = none ∧
    (TD_Cleanup td).CandidateCosts = none ∧
    (TD_Cleanup td).ActualNumCandidatesAtStep = none ∧
    (TD_Cleanup td).TourCostAtStep = none ∧
    (TD_Cleanup td).ChosenNodeAtStep = none ∧
    (TD_Cleanup td).ChosenNodeGainAtStep = none ∧
    (TD_Cleanup td).TrajectorySize = 0 ∧
    (TD_Cleanup td).MaxTrajectorySize = 0 ∧
    (TD_Cleanup td).Dimension = 0 ∧
    (TD_Cleanup td).MaxCandidatesPerStep = 0 ∧
    (TD_Cleanup td).RecordingEnabled = 0 ∧
    TD_Cleanup (TD_Cleanup td) = TD_Cleanup td ∧
    TD_CleanupP (TD_CleanupP (some td)) = TD_CleanupP (some td) :=
  ⟨rfl, rfl, rfl, rfl, rfl, rfl, rfl, rfl, rfl, rfl, rfl, rfl, rfl, rfl, rfl⟩

/-- **C10**: candidate-filter events never touch the trajectory buffer:
both `RecordCandidateFiltering` and `td_record_candidate_filter_event`
return the recorder state unchanged on every input, so no trajectory step
is consumed and nothing becomes visible in the extracted trajectory. -/
theorem C10_filter_events_leave_recorder_unchanged (td : TrajectoryData)
    (fromId toId cost accepted : Int) :
    RecordCandidateFiltering td fromId toId cost accepted = td ∧
    td_record_candidate_filter_event td fromId toId cost accepted = td := by
  refine ⟨?_, rfl⟩
  unfold RecordCandidateFiltering
  split
  · rfl
  · split
    · rfl
    · split
      · rfl
      · rfl

/-- **C2**: after a successful `TD_Initialize` with capacity `max_steps`,
every sequence of recorder calls keeps `0 ≤ TrajectorySize ≤ max_steps`;
and any `TD_RecordState`/`TD_RecordAction` call made while recording is
disabled, while the buffer is full, or against a NULL (uninitialized)
recorder leaves the recorder state unchanged — a silent no-op. -/
theorem C2_size_invariant_and_silent_noops
    (s t : TrajectoryData) (dim steps cands : Int) (plan : AllocPlan)
    (hinit : TD_Initialize (some s) dim steps cands plan = (0, some t))
    (cs : List TDCall) :
    (0 ≤ (TD_RunCalls t cs).TrajectorySize ∧
      (TD_RunCalls t cs).TrajectorySize ≤ steps) ∧
    (∀ (td : TrajectoryData) (nodeId : Int) (tour : Option (Int → Int))
        (cost : Int) (candIds : Option (Int → Int)) (candCosts : Option (Int → ℚ))
        (num chosen : Int) (gain : ℚ),
      td.RecordingEnabled = 0 ∨ td.MaxTrajectorySize ≤ td.TrajectorySize →
      TD_RecordState td nodeId tour cost candIds candCosts num = td ∧
      TD_RecordAction td chosen gain = td) ∧
    (∀ (nodeId : Int) (tour : Option (Int → Int)) (cost : Int)
        (candIds : Option (Int → Int)) (candCosts : Option (Int → ℚ))
        (num chosen : Int) (gain : ℚ),
      TD_RecordStateP none nodeId tour cost candIds candCosts num = none ∧
      TD_RecordActionP none chosen gain = none) := by
  obtain ⟨hz, hm, hpos⟩ := TD_initialize_success_fields s t dim steps cands plan hinit
  have hb := TD_runCalls_bounds cs t (by omega) (by omega)
  refine ⟨⟨hb.1, ?_⟩, ?_, ?_⟩
  · have h1 := hb.2.1
    have h2 := hb.2.2
    omega
  · intro td nodeId tour cost candIds candCosts num chosen gain h
    exact ⟨TD_recordState_noop td nodeId tour cost candIds candCosts num h,
      TD_recordAction_noop td chosen gain h⟩
  · intro nodeId tour cost candIds candCosts num chosen gain
    exact ⟨rfl, rfl⟩

/-- Witness for C2 at a concrete successful initialization (dimension 3,
capacity 2, 2 candidates per step) and a concrete call sequence. -/
theorem C2_size_invariant_witness :
    (0 ≤ (TD_RunCalls tdInitOk [TDCall.enable, TDCall.recAction 5 2]).TrajectorySize ∧
      (TD_RunCalls tdInitOk [TDCall.enable, TDCall.recAction 5 2]).TrajectorySize ≤ 2) ∧
    TD_RecordAction TDzero 5 2 = TDzero := by
  have h := C2_size_invariant_and_silent_noops TDzero tdInitOk 3 2 2 planOk rfl
    [TDCall.enable, TDCall.recAction 5 2]
  exact ⟨h.1, (h.2.1 TDzero 0 none 0 none none 0 5 2 (Or.inl rfl)).2⟩

/-- **C3**: `TD_RecordState` writes the state half of the current step but
never changes `TrajectorySize`; only a completing `TD_RecordAction` advances
`TrajectorySize`, by exactly one, and a guarded (non-completing)
`TD_RecordAction` changes nothing — so the logical size counts exactly the
steps whose action half has been written. -/
theorem C3_step_never_partially_visible
    (td : TrajectoryData) (nodeId : Int) (tour : Option (Int → Int)) (cost : Int)
    (candIds : Option (Int → Int)) (candCosts : Option (Int → ℚ)) (num : Int)
    (chosen : Int) (gain : ℚ) :
    (TD_RecordState td nodeId tour cost candIds candCosts num).TrajectorySize =
      td.TrajectorySize ∧
    (td.RecordingEnabled ≠ 0 → td.TrajectorySize < td.MaxTrajectorySize →
      (TD_RecordAction td chosen gain).TrajectorySize = td.TrajectorySize + 1) ∧
    (td.RecordingEnabled = 0 ∨ td.MaxTrajectorySize ≤ td.TrajectorySize →
      TD_RecordAction td chosen gain = td) := by
  refine ⟨TD_recordState_size td nodeId tour cost candIds candCosts num, ?_,
    fun h => TD_recordAction_noop td chosen gain h⟩
  intro h1 h2
  rcases TD_recordAction_size td chosen gain with hs | ⟨hs, _⟩
  · exfalso
    have := TD_recordAction_noop td chosen gain
    unfold TD_RecordAction at hs
    rw [if_neg (by push_neg; exact ⟨h1, h2⟩)] at hs
    have : td.TrajectorySize + 1 = td.TrajectorySize := hs
    omega
  · exact hs

/-- Witness for C3 on a concrete enabled, non-full recorder. -/
theorem C3_step_witness :
    (TD_RecordState tdSampleA 7 none 0 none none 0).TrajectorySize =
      tdSampleA.TrajectorySize ∧
    (TD_RecordAction tdSampleA 5 2).TrajectorySize = tdSampleA.TrajectorySize + 1 ∧
    TD_RecordAction TDzero 5 2 = TDzero := by
  have h := C3_step_never_partially_visible tdSampleA 7 none 0 none none 0 5 2
  have h2 := C3_step_never_partially_visible TDzero 7 none 0 none none 0 5 2
  exact ⟨h.1, h.2.1 (by decide) (by decide), h2.2.2 (Or.inl rfl)⟩

/-- **C7**: `TD_Initialize` returns -1 without touching the target whenever
the target is NULL or any bound is ≤ 0; and when the bounds are valid but
some backing-array allocation fails, it releases every partially allocated
buffer and leaves the recorder in the uninitialized all-zero state
(`TDzero`) before returning -1. -/
theorem C7_initialize_rejects_and_releases
    (td : Option TrajectoryData) (dim steps cands : Int) (plan : AllocPlan) :
    (td = none ∨ dim ≤ 0 ∨ steps ≤ 0 ∨ cands ≤ 0 →
      TD_Initialize td dim steps cands plan = (-1, td)) ∧
    (0 < dim → 0 < steps → 0 < cands →
      plan.ts.isNone ∨ plan.cn.isNone ∨ plan.ci.isNone ∨ plan.cc.isNone ∨
        plan.an.isNone ∨ plan.tc.isNone ∨ plan.ch.isNone ∨ plan.cg.isNone →
      TD_Initialize td dim steps cands plan = (-1, td.map (fun _ => TDzero))) := by
  constructor
  · intro h
    cases td with
    | none => rfl
    | some s =>
        rcases h with h | h
        · exact absurd h (by simp)
        · simp only [TD_Initialize]
          rw [if_pos h]
  · intro h1 h2 h3 hplan
    cases td with
    | none => rfl
    | some s =>
        simp only [TD_Initialize, Option.map_some']
        rw [if_neg (by push_neg; omega), if_pos hplan]
        rfl

/-- Witness for C7: NULL target, a zero bound, and a failing allocation. -/
theorem C7_initialize_witness :
    TD_Initialize none 3 2 2 planOk = (-1, none) ∧
    TD_Initialize (some tdSampleA) 3 0 2 planOk = (-1, some tdSampleA) ∧
    TD_Initialize (some tdSampleA) 3 2 2 planBad = (-1, some TDzero) := by
  refine ⟨?_, ?_, ?_⟩
  · exact (C7_initialize_rejects_and_releases none 3 2 2 planOk).1 (Or.inl rfl)
  · exact (C7_initialize_rejects_and_releases (some tdSampleA) 3 0 2 planOk).1
      (Or.inr (Or.inr (Or.inl (by norm_num))))
  · exact (C7_initialize_rejects_and_releases (some tdSampleA) 3 2 2 planBad).2
      (by norm_num) (by norm_num) (by norm_num) (Or.inl rfl)

/-- **C8**: a `TD_RecordState` call that passes the guard truncates an
over-long candidate list to `MaxCandidatesPerStep` silently — exactly the
first `MaxCandidatesPerStep` candidates are copied and the stored actual
count equals the truncated count — and, for any candidate count, the
candidate id and cost slots of the step from the copied count up to
`MaxCandidatesPerStep - 1` are set to the sentinel zero. -/
theorem C8_candidate_truncation_and_sentinels
    (td : TrajectoryData) (nid : Int) (tour : Option (Int → Int)) (cost : Int)
    (idsF : Int → Int) (costsF : Int → ℚ) (num : Int)
    (f0 : Int → Int) (g0 : Int → ℚ) (a0 : Int → Int)
    (henb : td.RecordingEnabled ≠ 0)
    (hroom : td.TrajectorySize < td.MaxTrajectorySize)
    (hci : td.CandidateNodeIds = some f0)
    (hcc : td.CandidateCosts = some g0)
    (han : td.ActualNumCandidatesAtStep = some a0) :
    (td.MaxCandidatesPerStep < num →
      tdActualCountAt (TD_RecordState td nid tour cost (some idsF) (some costsF) num)
          td.TrajectorySize = td.MaxCandidatesPerStep ∧
      (∀ k : Int, 0 ≤ k → k < td.MaxCandidatesPerStep →
        tdCandIdAt (TD_RecordState td nid tour cost (some idsF) (some costsF) num)
            (td.TrajectorySize * td.MaxCandidatesPerStep + k) = idsF k ∧
        tdCandCostAt (TD_RecordState td nid tour cost (some idsF) (some costsF) num)
            (td.TrajectorySize * td.MaxCandidatesPerStep + k) = costsF k)) ∧
    (∀ k : Int,
      (if td.MaxCandidatesPerStep < num then td.MaxCandidatesPerStep else num) ≤ k →
      k < td.MaxCandidatesPerStep →
      tdCandIdAt (TD_RecordState td nid tour cost (some idsF) (some costsF) num)
          (td.TrajectorySize * td.MaxCandidatesPerStep + k) = 0 ∧
      tdCandCostAt (TD_RecordState td nid tour cost (some idsF) (some costsF) num)
          (td.TrajectorySize * td.MaxCandidatesPerStep + k) = 0) := by
  have hguard : ¬(td.RecordingEnabled = 0 ∨ td.MaxTrajectorySize ≤ td.TrajectorySize) := by
    push_neg
    exact ⟨henb, hroom⟩
  unfold TD_RecordState
  rw [if_neg hguard]
  simp only [hci, hcc, han, Option.map_some', tdActualCountAt, tdCandIdAt, tdCandCostAt]
  constructor
  · intro hnum
    rw [if_pos hnum]
    constructor
    · unfold writeAt
      rw [if_pos rfl]
    · intro k hk0 hkM
      exact ⟨(fill_copy_eval f0 idsF (td.TrajectorySize * td.MaxCandidatesPerStep)
          td.MaxCandidatesPerStep td.MaxCandidatesPerStep 0 k).1 hk0 hkM,
        (fill_copy_eval g0 costsF (td.TrajectorySize * td.MaxCandidatesPerStep)
          td.MaxCandidatesPerStep td.MaxCandidatesPerStep 0 k).1 hk0 hkM⟩
  · intro k hkC hkM
    exact ⟨(fill_copy_eval f0 idsF (td.TrajectorySize * td.MaxCandidatesPerStep)
        (if td.MaxCandidatesPerStep < num then td.MaxCandidatesPerStep else num)
        td.MaxCandidatesPerStep 0 k).2 hkC hkM,
      (fill_copy_eval g0 costsF (td.TrajectorySize * td.MaxCandidatesPerStep)
        (if td.MaxCandidatesPerStep < num then td.MaxCandidatesPerStep else num)
        td.MaxCandidatesPerStep 0 k).2 hkC hkM⟩

/-- Membership in the active queue after one `Activate`. -/
theorem mem_Activate (m n : Int) (q : List Int) :
    m ∈ Activate n q ↔ m ∈ q ∨ m = n := by
  unfold Activate
  split
  · next h =>
      constructor
      · exact fun hm => Or.inl hm
      · rintro (hm | rfl)
        · exact hm
        · exact h
  · simp [List.mem_append]

/-- `Activate` keeps the queue duplicate-free. -/
theorem nodup_Activate (n : Int) (q : List Int) (h : q.Nodup) :
    (Activate n q).Nodup := by
  unfold Activate
  split
  · exact h
  · next hn => simp [List.nodup_append, h, hn]

/-- Membership characterisation of the activation pass, generalised over
the starting queue. -/
theorem mem_lkInitActivate_aux (P : LKParams) (nodes : List InitNode)
    (q : List Int) (m : Int) :
    m ∈ nodes.foldl
        (fun q nd => if shouldActivate P nd then Activate nd.id q else q) q ↔
      m ∈ q ∨ ∃ nd ∈ nodes, shouldActivate P nd = true ∧ nd.id = m := by
  induction nodes generalizing q with
  | nil => simp
  | cons nd nodes ih =>
      simp only [List.foldl_cons]
      by_cases h : shouldActivate P nd = true
      · rw [if_pos h, ih, mem_Activate]
        constructor
        · rintro ((hm | rfl) | ⟨nd', hmem, hs, hid⟩)
          · exact Or.inl hm
          · exact Or.inr ⟨nd, List.mem_cons_self nd nodes, h, rfl⟩
          · exact Or.inr ⟨nd', List.mem_cons_of_mem _ hmem, hs, hid⟩
        · rintro (hm | ⟨nd', hmem, hs, hid⟩)
          · exact Or.inl (Or.inl hm)
          · rcases List.mem_cons.mp hmem with rfl | hmem'
            · exact Or.inl (Or.inr hid.symm)
            · exact Or.inr ⟨nd', hmem', hs, hid⟩
      · rw [if_neg h, ih]
        constructor
        · rintro (hm | ⟨nd', hmem, hs, hid⟩)
          · exact Or.inl hm
          · exact Or.inr ⟨nd', List.mem_cons_of_mem _ hmem, hs, hid⟩
        · rintro (hm | ⟨nd', hmem, hs, hid⟩)
          · exact Or.inl hm
          · rcases List.mem_cons.mp hmem with rfl | hmem'
            · exact absurd hs h
            · exact Or.inr ⟨nd', hmem', hs, hid⟩

/-- The activation pass produces a duplicate-free queue. -/
theorem nodup_lkInitActivate_aux (P : LKParams) (nodes : List InitNode)
    (q : List Int) (h : q.Nodup) :
    (nodes.foldl
      (fun q nd => if shouldActivate P nd then Activate nd.id q else q) q).Nodup := by
  induction nodes generalizing q with
  | nil => exact h
  | cons nd nodes ih =>
      simp only [List.foldl_cons]
      apply ih
      split
      · exact nodup_Activate _ _ h
      · exact h

/-- **C5** (amended): at the start of a trial each node is activated exactly
once when the activation condition holds and zero times otherwise, and a
node is left passive precisely when this is not the first trial, kicks are
enabled (`KickType ≠ 0`), and both of its current tour edges belong to the
best-known tour.  (The claim as stated says "kicks are disabled"; the code's
condition `KickType == 0 || Trial == 1 || ¬InBestTour(..)` activates every
node whenever kicks are disabled.) -/
theorem C5_activation_exactly_once
    (P : LKParams) (nodes : List InitNode) (nd : InitNode)
    (hmem : nd ∈ nodes) (hnodup : (nodes.map InitNode.id).Nodup) :
    (List.count nd.id (lkInitActivate P nodes) =
      if shouldActivate P nd then 1 else 0) ∧
    (nd.id ∉ lkInitActivate P nodes ↔
      P.KickType ≠ 0 ∧ P.Trial ≠ 1 ∧ nd.inBestPred = true ∧ nd.inBestSuc = true) := by
  have hmemiff : nd.id ∈ lkInitActivate P nodes ↔ shouldActivate P nd = true := by
    unfold lkInitActivate
    rw [mem_lkInitActivate_aux]
    constructor
    · rintro (hm | ⟨nd', hmem', hs, hid⟩)
      · exact absurd hm (List.not_mem_nil _)
      · have hnd : nd' = nd := List.inj_on_of_nodup_map hnodup hmem' hmem hid
        rw [← hnd]
        exact hs
    · intro hs
      exact Or.inr ⟨nd, hmem, hs, rfl⟩
  have hnodupOut : (lkInitActivate P nodes).Nodup :=
    nodup_lkInitActivate_aux P nodes [] List.nodup_nil
  have hbool : (¬shouldActivate P nd = true) ↔
      (P.KickType ≠ 0 ∧ P.Trial ≠ 1 ∧ nd.inBestPred = true ∧ nd.inBestSuc = true) := by
    unfold shouldActivate
    cases hp : nd.inBestPred <;> cases hq : nd.inBestSuc <;> simp
  constructor
  · by_cases h : shouldActivate P nd = true
    · rw [if_pos h]
      exact List.count_eq_one_of_mem hnodupOut (hmemiff.mpr h)
    · rw [if_neg h]
      exact List.count_eq_zero_of_not_mem (fun hm => absurd (hmemiff.mp hm) h)
  · rw [← hbool]
    exact not_congr hmemiff

/-- Witness for the amended C5 at a concrete one-node instance. -/
theorem C5_activation_witness :
    List.count ndC5x.id (lkInitActivate pC5x [ndC5x]) =
      (if shouldActivate pC5x ndC5x then 1 else 0) :=
  (C5_activation_exactly_once pC5x [ndC5x] ndC5x (List.mem_singleton.mpr rfl)
    (by simp)).1

/-- Counterexample to C5 as stated: with kicks disabled (`KickType = 0`), a
non-first trial (`Trial = 2`) and both tour edges in the best-known tour,
the claim's passivity condition holds, yet the code activates the node. -/
theorem C5_counterexample :
    passiveClaimC5 pC5x ndC5x ∧ ndC5x.id ∈ lkInitActivate pC5x [ndC5x] := by
  refine ⟨⟨by decide, rfl, rfl, rfl⟩, by decide⟩

/-- **C1**: for every explored (non-skipped) branch, the speculative change
is committed — running cost reduced by the (Precision-scaled) gain, running
penalty reduced by `penaltyGain`, the speculative tour stored — exactly when
`gain > 0` or `penaltyGain > 0`; when both are ≤ 0 the branch rolls back
(`RestoreTour`) and the running cost and penalty are unchanged, so a
non-improving or zero move is never committed. -/
theorem C1_commit_only_on_positive_gain
    (P : LKParams) (O : LKOracle) (n : Nat) (t1 : Int) (x2 : Bool) (s : LKState)
    (hns : ¬(O.fixedP t1 (O.t2of n x2) = true ∨
      (O.nearP t1 (O.t2of n x2) = true ∧ (P.Trial = 1 ∨ P.KickType = 0)))) :
    ((O.sm n x2).penaltyGain ≤ 0 ∧ (O.sm n x2).gain ≤ 0 →
      (lkBranch P O n t1 x2 s).1 = BranchStatus.rolledBack ∧
      (lkBranch P O n t1 x2 s).2.Cost = s.Cost ∧
      (lkBranch P O n t1 x2 s).2.CurrentPenalty = s.CurrentPenalty ∧
      (lkBranch P O n t1 x2 s).2.curTour = s.storedTour ∧
      (lkBranch P O n t1 x2 s).2.storedTour = s.storedTour) ∧
    (0 < (O.sm n x2).penaltyGain ∨ 0 < (O.sm n x2).gain →
      (lkBranch P O n t1 x2 s).2.Cost = s.Cost - (O.sm n x2).gain.tdiv P.Precision ∧
      (lkBranch P O n t1 x2 s).2.CurrentPenalty =
        s.CurrentPenalty - (O.sm n x2).penaltyGain ∧
      (lkBranch P O n t1 x2 s).2.storedTour = (O.sm n x2).specTour ∧
      ((lkBranch P O n t1 x2 s).1 = BranchStatus.committed ∨
        (lkBranch P O n t1 x2 s).1 = BranchStatus.hit)) := by
  simp only [lkBranch]
  split
  · next hskip => exact absurd hskip hns
  · constructor
    · intro h
      rw [if_neg (by push_neg; exact h)]
      split
      all_goals exact ⟨rfl, rfl, rfl, rfl, rfl⟩
    · intro h
      rw [if_pos h]
      refine ⟨?_, ?_, rfl, ?_⟩
      · split
        all_goals rfl
      · split
        all_goals rfl
      · split
        all_goals split
        all_goals first
          | exact Or.inr rfl
          | exact Or.inl rfl

/-- Witness for C1 at a concrete non-improving branch. -/
theorem C1_commit_witness :
    (lkBranch pNoGain oNoGain 0 1 false sNoGain).1 = BranchStatus.rolledBack ∧
    (lkBranch pNoGain oNoGain 0 1 false sNoGain).2.Cost = sNoGain.Cost ∧
    (lkBranch pNoGain oNoGain 0 1 false sNoGain).2.CurrentPenalty =
      sNoGain.CurrentPenalty := by
  have h := C1_commit_only_on_positive_gain pNoGain oNoGain 0 1 false sNoGain
    (by decide)
  have h2 := h.1 (by decide)
  exact ⟨h2.1, h2.2.1, h2.2.2.1⟩

/-- **C6**: a branch ends with status `hit` exactly when it commits, hashing
is in use, and the hash-table query of the resulting `(hash, cost)` pair
answers yes; and such a hit abandons the active-node loop at once — the loop
returns the post-commit state without touching any further active node, so
`LinKernighan` proceeds to finalization and returns the current cost. -/
theorem C6_hash_hit_ends_trial
    (P : LKParams) (O : LKOracle) (n : Nat) (t1 : Int) (x2 : Bool) (s : LKState) :
    ((lkBranch P O n t1 x2 s).1 = BranchStatus.hit ↔
      ¬(O.fixedP t1 (O.t2of n x2) = true ∨
          (O.nearP t1 (O.t2of n x2) = true ∧ (P.Trial = 1 ∨ P.KickType = 0))) ∧
      (0 < (O.sm n x2).penaltyGain ∨ 0 < (O.sm n x2).gain) ∧
      P.HashingUsed = true ∧
      O.hashSearch (O.sm n x2).newHash
        (s.Cost - (O.sm n x2).gain.tdiv P.Precision) = true) ∧
    (∀ (fuel : Nat) (rest : List Int) (s' : LKState),
      s.active = t1 :: rest →
      lkHandleNode P O n t1 { s with active := rest } = IterOut.stop s' →
      lkLoop P O (fuel + 1) n s = s') ∧
    (∀ (fuel : Nat) (rest : List Int) (s' : LKState),
      s.active = t1 :: rest →
      lkHandleNode P O 0 t1 { s with active := rest } = IterOut.stop s' →
      LinKernighanLoopCost P O (fuel + 1) s = s'.Cost) ∧
    ((lkBranch P O n t1 false s).1 = BranchStatus.hit →
      lkHandleNode P O n t1 s = IterOut.stop (lkBranch P O n t1 false s).2) ∧
    (∀ (st1 : BranchStatus) (s1 : LKState),
      lkBranch P O n t1 false s = (st1, s1) →
      st1 = BranchStatus.skipped ∨ st1 = BranchStatus.rolledBack →
      (lkBranch P O n t1 true s1).1 = BranchStatus.hit →
      lkHandleNode P O n t1 s = IterOut.stop (lkBranch P O n t1 true s1).2) := by
  refine ⟨?_, ?_, ?_, ?_, ?_⟩
  · simp only [lkBranch]
    split
    · next hskip =>
        exact iff_of_false
          (fun h => BranchStatus.noConfusion
            (show BranchStatus.skipped = BranchStatus.hit from h))
          (fun h => h.1 hskip)
    · next hskip =>
        by_cases hrec : s.traj.RecordingEnabled ≠ 0
        · rw [if_pos hrec]
          by_cases hpos : 0 < (O.sm n x2).penaltyGain ∨ 0 < (O.sm n x2).gain
          · rw [if_pos hpos]
            split
            · next hhash => exact iff_of_true rfl ⟨hskip, hpos, hhash.1, hhash.2⟩
            · next hhash =>
                refine iff_of_false (fun h => BranchStatus.noConfusion
                  (show BranchStatus.committed = BranchStatus.hit from h)) ?_
                rintro ⟨-, -, hh1, hh2⟩
                exact hhash ⟨hh1, hh2⟩
          · rw [if_neg hpos]
            refine iff_of_false (fun h => BranchStatus.noConfusion
              (show BranchStatus.rolledBack = BranchStatus.hit from h)) ?_
            rintro ⟨-, hp, -, -⟩
            exact hpos hp
        · rw [if_neg hrec]
          by_cases hpos : 0 < (O.sm n x2).penaltyGain ∨ 0 < (O.sm n x2).gain
          · rw [if_pos hpos]
            split
            · next hhash => exact iff_of_true rfl ⟨hskip, hpos, hhash.1, hhash.2⟩
            · next hhash =>
                refine iff_of_false (fun h => BranchStatus.noConfusion
                  (show BranchStatus.committed = BranchStatus.hit from h)) ?_
                rintro ⟨-, -, hh1, hh2⟩
                exact hhash ⟨hh1, hh2⟩
          · rw [if_neg hpos]
            refine iff_of_false (fun h => BranchStatus.noConfusion
              (show BranchStatus.rolledBack = BranchStatus.hit from h)) ?_
            rintro ⟨-, hp, -, -⟩
            exact hpos hp
  · intro fuel rest s' hact hstop
    simp only [lkLoop, hact, hstop]
  · intro fuel rest s' hact hstop
    unfold LinKernighanLoopCost
    simp only [lkLoop, hact, hstop]
  · intro hhit
    unfold lkHandleNode
    rcases hb : lkBranch P O n t1 false s with ⟨st1, s1⟩
    rw [hb] at hhit
    simp only at hhit
    subst hhit
    simp only [hb]
  · intro st1 s1 hb hstat hhit2
    unfold lkHandleNode
    rw [hb]
    rcases hb2 : lkBranch P O n t1 true s1 with ⟨st2, s2⟩
    rw [hb2] at hhit2
    simp only at hhit2
    subst hhit2
    rcases hstat with rfl | rfl
    · simp only [hb2]
    · simp only [hb2]

/-- Witness for C6 at a concrete hash-hit run: node 1 commits a gain of 5,
the query hits, and the trial stops with node 4 still unprocessed,
returning the post-commit cost 95. -/
theorem C6_hash_hit_witness :
    (lkBranch pHit oHit 0 1 false { sHit0 with active := [4] }).1 =
      BranchStatus.hit ∧
    lkLoop pHit oHit 3 0 sHit0 = sHitEnd ∧
    LinKernighanLoopCost pHit oHit 3 sHit0 = sHitEnd.Cost ∧
    sHitEnd.Cost = 95 := by
  have h := C6_hash_hit_ends_trial pHit oHit 0 1 false sHit0
  refine ⟨?_, ?_, ?_, ?_⟩
  · exact (C6_hash_hit_ends_trial pHit oHit 0 1 false
      { sHit0 with active := [4] }).1.mpr ⟨by decide, by decide, rfl, rfl⟩
  · exact h.2.1 2 [4] sHitEnd rfl rfl
  · exact h.2.2.1 2 [4] sHitEnd rfl rfl
  · decide

/-- `TD_RecordState` never touches the action-half arrays or the control
flags. -/
theorem TD_recordState_untouched (td : TrajectoryData) (nodeId : Int)
    (tour : Option (Int → Int)) (cost : Int) (candIds : Option (Int → Int))
    (candCosts : Option (Int → ℚ)) (num : Int) :
    (TD_RecordState td nodeId tour cost candIds candCosts num).ChosenNodeAtStep =
      td.ChosenNodeAtStep ∧
    (TD_RecordState td nodeId tour cost candIds candCosts num).ChosenNodeGainAtStep =
      td.ChosenNodeGainAtStep ∧
    (TD_RecordState td nodeId tour cost candIds candCosts num).RecordingEnabled =
      td.RecordingEnabled := by
  unfold TD_RecordState
  split
  · exact ⟨rfl, rfl, rfl⟩
  · exact ⟨rfl, rfl, rfl⟩

/-- A completing `TD_RecordAction` writes the chosen node id and gain into
the action slots of step `TrajectorySize`. -/
theorem TD_recordAction_writes (td : TrajectoryData) (chosen : Int) (gain : ℚ)
    (ch0 : Int → Int) (cg0 : Int → ℚ)
    (henb : td.RecordingEnabled ≠ 0)
    (hroom : td.TrajectorySize < td.MaxTrajectorySize)
    (hch : td.ChosenNodeAtStep = some ch0)
    (hcg : td.ChosenNodeGainAtStep = some cg0) :
    tdChosenAt (TD_RecordAction td chosen gain) td.TrajectorySize = chosen ∧
    tdGainAt (TD_RecordAction td chosen gain) td.TrajectorySize = gain := by
  unfold TD_RecordAction
  rw [if_neg (by push_neg; exact ⟨henb, hroom⟩)]
  simp [tdChosenAt, tdGainAt, hch, hcg, writeAt]

/-- **C4** (amended): for every recorded branch the action half holds the id
of the node chosen as `t2`, and the gain written into `ChosenNodeGainAtStep`
is the pre-division `G0` scaled back by the `Precision` factor — it equals
`G0 / Precision` whenever `Precision ≠ 0`, and the raw `G0` only when
`Precision = 0`.  (The claim as stated says the stored value equals the raw
`G0`; `RecordDecision` divides it by `Precision` before storing.) -/
theorem C4_recorded_gain_is_scaled
    (traj : TrajectoryData) (tId : Int) (tourIds : List Int)
    (cands : List (Int × Int)) (t2 gain cost Precision : Int)
    (ch0 : Int → Int) (cg0 : Int → ℚ)
    (henb : traj.RecordingEnabled ≠ 0)
    (hroom : traj.TrajectorySize < traj.MaxTrajectorySize)
    (hdim : 0 < traj.Dimension) (hmc : 0 < traj.MaxCandidatesPerStep)
    (hch : traj.ChosenNodeAtStep = some ch0)
    (hcg : traj.ChosenNodeGainAtStep = some cg0) :
    tdChosenAt (RecordDecision traj tId tourIds cands (some t2) gain cost Precision)
        traj.TrajectorySize = t2 ∧
    tdGainAt (RecordDecision traj tId tourIds cands (some t2) gain cost Precision)
        traj.TrajectorySize =
      (if Precision ≠ 0 then (gain : ℚ) / (Precision : ℚ) else (gain : ℚ)) := by
  have hguard : ¬(traj.RecordingEnabled = 0 ∨
      traj.MaxTrajectorySize ≤ traj.TrajectorySize) := by
    push_neg
    exact ⟨henb, hroom⟩
  have hRD : RecordDecision traj tId tourIds cands (some t2) gain cost Precision =
      TD_RecordAction (TD_RecordState traj tId (some (listFn tourIds 0)) cost
        (some (listFn ((cands.take traj.MaxCandidatesPerStep.toNat).map Prod.fst) 0))
        (some (listFn ((cands.take traj.MaxCandidatesPerStep.toNat).map (fun p =>
          if Precision ≠ 0 then (p.2 : ℚ) / (Precision : ℚ) else (p.2 : ℚ))) 0))
        ((cands.take traj.MaxCandidatesPerStep.toNat).length : Int))
        t2 (if Precision ≠ 0 then (gain : ℚ) / (Precision : ℚ) else (gain : ℚ)) := by
    unfold RecordDecision
    rw [if_neg hguard, if_neg (not_le.mpr hdim), if_neg (not_le.mpr hmc)]
    rfl
  rw [hRD]
  have hu := TD_recordState_untouched traj tId (some (listFn tourIds 0)) cost
    (some (listFn ((cands.take traj.MaxCandidatesPerStep.toNat).map Prod.fst) 0))
    (some (listFn ((cands.take traj.MaxCandidatesPerStep.toNat).map (fun p =>
      if Precision ≠ 0 then (p.2 : ℚ) / (Precision : ℚ) else (p.2 : ℚ))) 0))
    ((cands.take traj.MaxCandidatesPerStep.toNat).length : Int)
  have hs := TD_recordState_size traj tId (some (listFn tourIds 0)) cost
    (some (listFn ((cands.take traj.MaxCandidatesPerStep.toNat).map Prod.fst) 0))
    (some (listFn ((cands.take traj.MaxCandidatesPerStep.toNat).map (fun p =>
      if Precision ≠ 0 then (p.2 : ℚ) / (Precision : ℚ) else (p.2 : ℚ))) 0))
    ((cands.take traj.MaxCandidatesPerStep.toNat).length : Int)
  have hm := TD_recordState_max traj tId (some (listFn tourIds 0)) cost
    (some (listFn ((cands.take traj.MaxCandidatesPerStep.toNat).map Prod.fst) 0))
    (some (listFn ((cands.take traj.MaxCandidatesPerStep.toNat).map (fun p =>
      if Precision ≠ 0 then (p.2 : ℚ) / (Precision : ℚ) else (p.2 : ℚ))) 0))
    ((cands.take traj.MaxCandidatesPerStep.toNat).length : Int)
  have hw := TD_recordAction_writes (TD_RecordState traj tId (some (listFn tourIds 0))
    cost (some (listFn ((cands.take traj.MaxCandidatesPerStep.toNat).map Prod.fst) 0))
    (some (listFn ((cands.take traj.MaxCandidatesPerStep.toNat).map (fun p =>
      if Precision ≠ 0 then (p.2 : ℚ) / (Precision : ℚ) else (p.2 : ℚ))) 0))
    ((cands.take traj.MaxCandidatesPerStep.toNat).length : Int))
    t2 (if Precision ≠ 0 then (gain : ℚ) / (Precision : ℚ) else (gain : ℚ)) ch0 cg0
    (by rw [hu.2.2]; exact henb) (by rw [hs, hm]; exact hroom)
    (by rw [hu.1]; exact hch) (by rw [hu.2.1]; exact hcg)
  rw [hs] at hw
  exact hw

/-- Witness for the amended C4 on a concrete recorder with `Precision = 2`
and `G0 = 10`. -/
theorem C4_gain_witness :
    tdChosenAt (RecordDecision tdSampleA 1 [] [] (some 2) 10 99 2)
      tdSampleA.TrajectorySize = 2 ∧
    tdGainAt (RecordDecision tdSampleA 1 [] [] (some 2) 10 99 2)
      tdSampleA.TrajectorySize =
      (if (2 : Int) ≠ 0 then ((10 : Int) : ℚ) / ((2 : Int) : ℚ)
        else ((10 : Int) : ℚ)) :=
  C4_recorded_gain_is_scaled tdSampleA 1 [] [] 2 10 99 2 (fun _ => 0) (fun _ => 0)
    (by decide) (by decide) (by decide) (by decide) rfl rfl

/-- Counterexample to C4 as stated: with `Precision = 2` and pre-division
gain `G0 = 10`, the value actually written into `ChosenNodeGainAtStep` is
`10 / 2 = 5`, not the raw `G0 = 10`. -/
theorem C4_gain_counterexample :
    tdGainAt (RecordDecision tdSampleA 1 [] [] (some 2) 10 99 2) 0 = 5 ∧
    tdGainAt (RecordDecision tdSampleA 1 [] [] (some 2) 10 99 2) 0 ≠ 10 := by
  have h : tdGainAt (RecordDecision tdSampleA 1 [] [] (some 2) 10 99 2) 0 = 5 := by
    norm_num [RecordDecision, TD_RecordState, TD_RecordAction, tdGainAt, tdSampleA,
      writeAt, listFn]
  refine ⟨h, ?_⟩
  rw [h]
  norm_num

/-- Witness for C8: candidate count 3 against capacity 2 is truncated to 2
with the first two candidates copied; candidate count 1 leaves slot 1 as the
zero sentinel. -/
theorem C8_candidate_witness :
    tdActualCountAt (TD_RecordState tdSampleA 7 none 0 (some (fun i => i + 10))
        (some (fun _ => 1)) 3) tdSampleA.TrajectorySize = 2 ∧
    tdCandIdAt (TD_RecordState tdSampleA 7 none 0 (some (fun i => i + 10))
        (some (fun _ => 1)) 3)
      (tdSampleA.TrajectorySize * tdSampleA.MaxCandidatesPerStep + 1) = 11 ∧
    tdCandIdAt (TD_RecordState tdSampleA 7 none 0 (some (fun i => i + 10))
        (some (fun _ => 1)) 1)
      (tdSampleA.TrajectorySize * tdSampleA.MaxCandidatesPerStep + 1) = 0 := by
  have h3 := C8_candidate_truncation_and_sentinels tdSampleA 7 none 0
    (fun i => i + 10) (fun _ => 1) 3 (fun _ => 0) (fun _ => 0) (fun _ => 0)
    (by decide) (by decide) rfl rfl rfl
  have h1 := C8_candidate_truncation_and_sentinels tdSampleA 7 none 0
    (fun i => i + 10) (fun _ => 1) 1 (fun _ => 0) (fun _ => 0) (fun _ => 0)
    (by decide) (by decide) rfl rfl rfl
  have ht := h3.1 (by decide)
  refine ⟨ht.1, ?_, ?_⟩
  · exact ((ht.2 1 (by decide) (by decide)).1).trans (by norm_num)
  · exact (h1.2 1 (by decide) (by decide)).1
